import Mathlib

/-!
Shallow embedding of `core/router/api_container.go` from yuedf/iris:
the Dependency-Injection wrapper (`APIContainer`) over a routing `Party`.

The file `api_container.go` is the source of authority. Its collaborators
(the `hero` container, the `Party` routing group, `AllMethods`,
`ExecutionOptions`, `macro.CountParams`) are code of the same repository
that is not available here; those are modelled from the specification,
each marked `Modelled from the spec:` in its doc comment.

Go state mutation through pointer receivers is embedded as explicit state
passing: a method that mutates its receiver returns the updated value.
-/

namespace Iris

/-- Abstract type descriptor used as a dependency key (Go `reflect.Type`). -/
abbrev TypeKey := Nat

/-- Abstract dependency value. -/
abbrev Val := Nat

/-- Abstract request context identity (Go `context.Context` value). -/
abbrev Ctx := Nat

/-- Abstract macro map (Go `*macro.Macros`), consumed only by `CountParams`. -/
abbrev Macros := Nat

/-- HTTP methods, as named by the `net/http` constants used in the source. -/
inductive Method where
  | GET | POST | PUT | DELETE | CONNECT | HEAD | PATCH | OPTIONS | TRACE
deriving DecidableEq, Repr

/-- A user-supplied error handler `func(context.Context, error)`, identified
abstractly (Go function values have no structural equality). -/
structure UserErrHandler where
  id : Nat
deriving DecidableEq, Repr

/-- `hero.ErrorHandler`, the container-level error handler interface. -/
structure ErrorHandler where
  id : Nat
deriving DecidableEq, Repr

/-- `hero.ErrorHandlerFunc`: the adapter turning a plain
`func(context.Context, error)` into a `hero.ErrorHandler`. -/
def ErrorHandlerFunc (h : UserErrHandler) : ErrorHandler :=
  ⟨h.id⟩

/-- An arbitrary hero handler function (the `interface\x7b\x7d` inputs of the
source), identified abstractly. -/
structure HandlerFn where
  id : Nat
deriving DecidableEq, Repr

/-- Modelled from the spec: the per-scope dependency registry together with
the scope's error-handler accessor and result-handler chain (the parts of
`hero.Container` that `api_container.go` reads and writes). Keys in `deps`
are unique, last registration for a type wins. -/
structure Container where
  deps : List (TypeKey × Val)
  getErrorHandler : Ctx → ErrorHandler
  resultChain : List Nat

/-- Modelled from the spec: `hero.Container.Register`. Classifies and stores
a dependency under its type descriptor; keys stay unique, the last
registration for a type wins. -/
def Container.Register (c : Container) (d : TypeKey × Val) : Container :=
  { c with deps := (c.deps.filter (fun e => e.1 ≠ d.1)) ++ [d] }

/-- Lookup by type descriptor, returning the stored value or a not-found
signal. -/
def Container.lookup (c : Container) (k : TypeKey) : Option Val :=
  (c.deps.find? (fun e => e.1 == k)).map (fun e => e.2)

/-- Modelled from the spec: `branch()` / the per-party clone of the hero
container — a child registry pre-populated with a shallow copy of all
current entries. -/
def Container.clone (c : Container) : Container :=
  { deps := c.deps
    getErrorHandler := c.getErrorHandler
    resultChain := c.resultChain }

/-- What a hero handler function returns on one invocation: a normal value,
no value, the dedicated stop sentinel `ErrStopExecution`, or a non-sentinel
error. -/
inductive FnReturn where
  | value (v : Val)
  | nilReturn
  | stopSentinel
  | failure (e : Nat)
deriving DecidableEq, Repr

/-- Pipeline outcome of invoking one adapted handler on a request:
`continueNext` means `ctx.Next` was called and the chain proceeds;
`finishedNoNext` means the handler returned without advancing the chain;
`haltStopped` halts the pipeline without a hard failure;
`haltError` routes the error to the captured error handler and halts. -/
inductive StepOutcome where
  | continueNext
  | finishedNoNext
  | haltStopped
  | haltError (h : ErrorHandler) (e : Nat)
deriving DecidableEq, Repr

/-- The uniform native handler produced by the hero container for one
function: the function, its resolution-plan parameter count, the snapshot
of the owning scope's error-handler accessor and result chain taken at
construction time, and whether `ctx.Next` is forced after a normal return. -/
structure AdaptedHandler where
  fn : HandlerFn
  paramsCount : Nat
  errH : Ctx → ErrorHandler
  resultChain : List Nat
  autoNext : Bool

/-- Modelled from the spec: `hero.Container.HandlerWithParams` builds the
adapted handler for one function, building its resolution plan from the
given positional path-parameter count and capturing a snapshot of the
scope's error handler and result chain at construction time. -/
def Container.HandlerWithParams (c : Container) (fn : HandlerFn)
    (paramsCount : Nat) : AdaptedHandler :=
  { fn := fn
    paramsCount := paramsCount
    errH := c.getErrorHandler
    resultChain := c.resultChain
    autoNext := false }

/-- Modelled from the spec: one request-time invocation of an adapted
handler, given what the underlying function returned. A normal return
continues to the next handler when `ctx.Next` is forced; the stop sentinel
halts the pipeline without being a hard failure; a non-sentinel error is
routed to the error handler captured at construction. -/
def AdaptedHandler.invoke (h : AdaptedHandler) (ctx : Ctx)
    (ret : FnReturn) : StepOutcome :=
  match ret with
  | .stopSentinel => .haltStopped
  | .failure e => .haltError (h.errH ctx) e
  | .value _ => if h.autoNext then .continueNext else .finishedNoNext
  | .nilReturn => if h.autoNext then .continueNext else .finishedNoNext

/-- `ExecutionOptions` of the router package (only the `Force` field is used
by the source). -/
structure ExecutionOptions where
  Force : Bool

/-- Modelled from the spec: `ExecutionOptions.apply` with `Force` set marks
every handler of the list so that `ctx.Next` is called automatically after
a normal return. -/
def ExecutionOptions.apply (o : ExecutionOptions)
    (hs : List AdaptedHandler) : List AdaptedHandler :=
  if o.Force then hs.map (fun h => { h with autoNext := true }) else hs

/-- Modelled from the spec: `macro.CountParams`, the external path-pattern
analyzer reporting how many path segments of the full pattern are
parameterized. Parameterized segments are written between braces. -/
def CountParams (fullpath : String) (_macros : Macros) : Nat :=
  ((fullpath.splitOn "/").filter (fun s => s.startsWith "\x7b")).length

/-- A registered route descriptor (`*router.Route`): the method, the
relative path it was registered under, and its handler chain. -/
structure Route where
  method : Method
  path : String
  handlers : List AdaptedHandler

/-- Modelled from the spec: the routing `Party` collaborator, consumed
through a narrow interface — its relative path prefix, its macro map, a
handler-registration table keyed by (method, path), begin/done middleware
lists, and the possibility that the external routing table rejects a
particular registration. -/
structure Party where
  relPath : String
  macros : Macros
  routes : List Route
  useHandlers : List AdaptedHandler
  doneHandlers : List AdaptedHandler
  rejects : Method → String → Bool

/-- `Party.GetRelPath`. -/
def Party.GetRelPath (p : Party) : String := p.relPath

/-- `Party.Macros`. -/
def Party.Macros (p : Party) : Macros := p.macros

/-- Modelled from the spec: `Party.Handle` registers the handler list
against the routing table under (method, path) and returns the created
route descriptor, or no descriptor when the routing table rejects the
registration. -/
def Party.Handle (p : Party) (m : Method) (rel : String)
    (hs : List AdaptedHandler) : Party × Option Route :=
  if p.rejects m rel then (p, none)
  else
    let r : Route := { method := m, path := rel, handlers := hs }
    ({ p with routes := p.routes ++ [r] }, some r)

/-- Modelled from the spec: `Party.HandleMany` for a single method —
delegates to `Party.Handle` and reports that method's result
independently. -/
def Party.HandleMany (p : Party) (m : Method) (rel : String)
    (hs : List AdaptedHandler) : Party × List (Option Route) :=
  let res := p.Handle m rel hs
  (res.1, [res.2])

/-- Modelled from the spec: `Party.Use` registers begin middleware. -/
def Party.Use (p : Party) (hs : List AdaptedHandler) : Party :=
  { p with useHandlers := p.useHandlers ++ hs }

/-- Modelled from the spec: `Party.Done` registers done middleware. -/
def Party.Done (p : Party) (hs : List AdaptedHandler) : Party :=
  { p with doneHandlers := p.doneHandlers ++ hs }

/-- Modelled from the spec: `Party.Party` creates a child route group whose
path prefix is the parent's prefix concatenated with the relative path and
whose begin middleware starts with the given handlers. -/
def Party.mkParty (p : Party) (rel : String)
    (hs : List AdaptedHandler) : Party :=
  { relPath := p.relPath ++ rel
    macros := p.macros
    routes := []
    useHandlers := hs
    doneHandlers := []
    rejects := p.rejects }

/-- Modelled from the spec: the fixed ordered verb set expanded by "any
method" registration (`router.AllMethods`): GET, POST, PUT, DELETE, HEAD,
PATCH, OPTIONS, CONNECT, TRACE. -/
def AllMethods : List Method :=
  [.GET, .POST, .PUT, .DELETE, .HEAD, .PATCH, .OPTIONS, .CONNECT, .TRACE]

/-- `APIContainer`: a wrapper of a common `Party` featured by Dependency
Injection — the original `Party` plus the per-party DI container. -/
structure APIContainer where
  Self : Party
  Container : Container

/-- `APIContainer.convertHandlerFuncs`: computes the full path, asks the
external pattern analyzer for the positional path-parameter count, adapts
each function with that count, and applies `ExecutionOptions` with `Force`
set so `ctx.Next` is called automatically. -/
def APIContainer.convertHandlerFuncs (api : APIContainer)
    (relativePath : String) (handlersFn : List HandlerFn) :
    List AdaptedHandler :=
  let fullpath := api.Self.GetRelPath ++ relativePath
  let paramsCount := CountParams fullpath api.Self.Macros
  let handlers :=
    handlersFn.map (fun h => api.Container.HandlerWithParams h paramsCount)
  let o : ExecutionOptions := { Force := true }
  o.apply handlers

/-- `APIContainer.Party`: converts the handlers, creates the child `Party`,
and returns its API container (`ConfigureContainer` modelled from the
spec: the child's DI container is a clone of the parent's). -/
def APIContainer.mkParty (api : APIContainer) (relativePath : String)
    (handlersFn : List HandlerFn) : APIContainer :=
  let handlers := api.convertHandlerFuncs relativePath handlersFn
  let p := api.Self.mkParty relativePath handlers
  { Self := p, Container := api.Container.clone }

/-- `APIContainer.OnError`: wraps the user handler with
`hero.ErrorHandlerFunc` and sets the container's error-handler accessor to
constantly return it. -/
def APIContainer.OnError (api : APIContainer)
    (errorHandler : UserErrHandler) : APIContainer :=
  let errHandler := ErrorHandlerFunc errorHandler
  { api with
    Container :=
      { api.Container with getErrorHandler := fun _ => errHandler } }

/-- `APIContainer.RegisterDependency`: adds a dependency to the container
and returns it. -/
def APIContainer.RegisterDependency (api : APIContainer)
    (dependency : TypeKey × Val) : APIContainer × (TypeKey × Val) :=
  ({ api with Container := api.Container.Register dependency }, dependency)

/-- `APIContainer.Use`: converts the functions against the fixed relative
path `/` and delegates to `Self.Use`. -/
def APIContainer.Use (api : APIContainer)
    (handlersFn : List HandlerFn) : APIContainer :=
  let handlers := api.convertHandlerFuncs "/" handlersFn
  { api with Self := api.Self.Use handlers }

/-- `APIContainer.Done`: converts the functions against the fixed relative
path `/` and delegates to `Self.Done`. -/
def APIContainer.Done (api : APIContainer)
    (handlersFn : List HandlerFn) : APIContainer :=
  let handlers := api.convertHandlerFuncs "/" handlersFn
  { api with Self := api.Self.Done handlers }

/-- `APIContainer.Handle`: converts the functions and registers them with
`Self.Handle` under (method, relativePath). -/
def APIContainer.Handle (api : APIContainer) (method : Method)
    (relativePath : String) (handlersFn : List HandlerFn) :
    APIContainer × Option Route :=
  let handlers := api.convertHandlerFuncs relativePath handlersFn
  let res := api.Self.Handle method relativePath handlers
  ({ api with Self := res.1 }, res.2)

/-- `APIContainer.Get`. -/
def APIContainer.Get (api : APIContainer) (relativePath : String)
    (handlersFn : List HandlerFn) : APIContainer × Option Route :=
  api.Handle .GET relativePath handlersFn

/-- `APIContainer.Post`. -/
def APIContainer.Post (api : APIContainer) (relativePath : String)
    (handlersFn : List HandlerFn) : APIContainer × Option Route :=
  api.Handle .POST relativePath handlersFn

/-- `APIContainer.Put`. -/
def APIContainer.Put (api : APIContainer) (relativePath : String)
    (handlersFn : List HandlerFn) : APIContainer × Option Route :=
  api.Handle .PUT relativePath handlersFn

/-- `APIContainer.Delete`. -/
def APIContainer.Delete (api : APIContainer) (relativePath : String)
    (handlersFn : List HandlerFn) : APIContainer × Option Route :=
  api.Handle .DELETE relativePath handlersFn

/-- `APIContainer.Connect`. -/
def APIContainer.Connect (api : APIContainer) (relativePath : String)
    (handlersFn : List HandlerFn) : APIContainer × Option Route :=
  api.Handle .CONNECT relativePath handlersFn

/-- `APIContainer.Head`. -/
def APIContainer.Head (api : APIContainer) (relativePath : String)
    (handlersFn : List HandlerFn) : APIContainer × Option Route :=
  api.Handle .HEAD relativePath handlersFn

/-- `APIContainer.Options`. -/
def APIContainer.Options (api : APIContainer) (relativePath : String)
    (handlersFn : List HandlerFn) : APIContainer × Option Route :=
  api.Handle .OPTIONS relativePath handlersFn

/-- `APIContainer.Patch`. -/
def APIContainer.Patch (api : APIContainer) (relativePath : String)
    (handlersFn : List HandlerFn) : APIContainer × Option Route :=
  api.Handle .PATCH relativePath handlersFn

/-- `APIContainer.Trace`. -/
def APIContainer.Trace (api : APIContainer) (relativePath : String)
    (handlersFn : List HandlerFn) : APIContainer × Option Route :=
  api.Handle .TRACE relativePath handlersFn

/-- One iteration of the loop in `APIContainer.Any`: register the converted
handlers for one method via `Self.HandleMany` and append that method's
results. -/
def anyStep (rel : String) (hs : List AdaptedHandler)
    (acc : Party × List (Option Route)) (m : Method) :
    Party × List (Option Route) :=
  let res := acc.1.HandleMany m rel hs
  (res.1, acc.2 ++ res.2)

/-- `APIContainer.Any`: converts the handlers once, then loops over
`AllMethods`, registering the same converted handler chain for each method
and collecting the per-method results. -/
def APIContainer.Any (api : APIContainer) (relativePath : String)
    (handlersFn : List HandlerFn) : APIContainer × List (Option Route) :=
  let handlers := api.convertHandlerFuncs relativePath handlersFn
  let res := AllMethods.foldl (anyStep relativePath handlers) (api.Self, [])
  ({ api with Self := res.1 }, res.2)

/-! ## Helper lemmas -/

/-- `convertHandlerFuncs` is one map over the input functions: each function
becomes one adapted handler carrying the full-path parameter count, the
snapshot of the container's error handler and result chain, and the forced
`ctx.Next` flag. -/
theorem convertHandlerFuncs_eq (api : APIContainer) (rel : String)
    (fns : List HandlerFn) :
    api.convertHandlerFuncs rel fns =
      fns.map (fun h =>
        { fn := h
          paramsCount := CountParams (api.Self.GetRelPath ++ rel) api.Self.Macros
          errH := api.Container.getErrorHandler
          resultChain := api.Container.resultChain
          autoNext := true }) := by
  simp [APIContainer.convertHandlerFuncs, ExecutionOptions.apply,
    Container.HandlerWithParams, List.map_map]

/-- The loop of `Any`: the accumulated results are one per method in order,
each depending only on whether its own (method, path) registration is
rejected; the rejection predicate is preserved; the routing table gains
exactly the non-rejected registrations in order. -/
theorem anyFold_spec (rel : String) (hs : List AdaptedHandler)
    (ms : List Method) : ∀ (p : Party) (acc : List (Option Route)),
    ((ms.foldl (anyStep rel hs) (p, acc)).2 =
        acc ++ ms.map (fun m => if p.rejects m rel then none
          else some { method := m, path := rel, handlers := hs })) ∧
    ((ms.foldl (anyStep rel hs) (p, acc)).1.rejects = p.rejects) ∧
    ((ms.foldl (anyStep rel hs) (p, acc)).1.routes =
        p.routes ++ (ms.filter (fun m => !p.rejects m rel)).map
          (fun m => { method := m, path := rel, handlers := hs })) := by
  induction ms with
  | nil => intro p acc; simp
  | cons m ms ih =>
    intro p acc
    by_cases hrej : p.rejects m rel
    · have hstep : (m :: ms).foldl (anyStep rel hs) (p, acc) =
          ms.foldl (anyStep rel hs) (p, acc ++ [none]) := by
        simp [List.foldl, anyStep, Party.HandleMany, Party.Handle, hrej]
      obtain ⟨h1, h2, h3⟩ := ih p (acc ++ [none])
      rw [hstep]
      refine ⟨?_, h2, ?_⟩
      · rw [h1]; simp [hrej]
      · rw [h3]; simp [hrej]
    · have hstep : (m :: ms).foldl (anyStep rel hs) (p, acc) =
          ms.foldl (anyStep rel hs)
            ({ p with routes :=
                p.routes ++ [{ method := m, path := rel, handlers := hs }] },
              acc ++ [some { method := m, path := rel, handlers := hs }]) := by
        simp [List.foldl, anyStep, Party.HandleMany, Party.Handle, hrej]
      obtain ⟨h1, h2, h3⟩ :=
        ih { p with routes :=
              p.routes ++ [{ method := m, path := rel, handlers := hs }] }
          (acc ++ [some { method := m, path := rel, handlers := hs }])
      rw [hstep]
      refine ⟨?_, h2, ?_⟩
      · rw [h1]; simp [hrej]
      · rw [h3]; simp [hrej]

/-- Filtering out entries of a different key does not change a lookup. -/
theorem find?_filter_ne (l : List (TypeKey × Val)) (k dk : TypeKey)
    (hne : k ≠ dk) :
    (l.filter (fun e => e.1 ≠ dk)).find? (fun e => e.1 == k) =
      l.find? (fun e => e.1 == k) := by
  rw [List.find?_filter]
  congr 1
  funext e
  by_cases hek : e.1 = k
  · simp [hek]
    exact hne
  · simp [hek]

/-- After registering a dependency, looking up its type descriptor finds its
value. -/
theorem lookup_Register_self (c : Container) (d : TypeKey × Val) :
    (c.Register d).lookup d.1 = some d.2 := by
  unfold Container.Register Container.lookup
  have hnone : (c.deps.filter (fun e => e.1 ≠ d.1)).find?
      (fun e => e.1 == d.1) = none := by
    rw [List.find?_filter, List.find?_eq_none]
    intro x _
    by_cases h : x.1 = d.1 <;> simp [h]
  rw [List.find?_append, hnone]
  simp

/-- Registering a dependency leaves lookups of other type descriptors
unchanged. -/
theorem lookup_Register_other (c : Container) (d : TypeKey × Val)
    (k : TypeKey) (hne : k ≠ d.1) :
    (c.Register d).lookup k = c.lookup k := by
  unfold Container.Register Container.lookup
  rw [List.find?_append, find?_filter_ne c.deps k d.1 hne]
  have hdk : ((d.1 == k) : Bool) = false := by
    simp
    exact fun h => hne h.symm
  cases hfind : c.deps.find? (fun e => e.1 == k) with
  | some e => simp [hfind]
  | none => simp [hfind, hdk]

/-! ## Concrete container used by the witnesses -/

/-- A concrete `Party` whose routing table rejects nothing. -/
def demoParty : Party :=
  { relPath := "/api"
    macros := 0
    routes := []
    useHandlers := []
    doneHandlers := []
    rejects := fun _ _ => false }

/-- A concrete hero container whose active error handler is `⟨5⟩`. -/
def demoContainer : Container :=
  { deps := []
    getErrorHandler := fun _ => ⟨5⟩
    resultChain := [] }

/-- A concrete `APIContainer` built from `demoParty` and `demoContainer`. -/
def demoApi : APIContainer :=
  { Self := demoParty, Container := demoContainer }

/-! ## Claim theorems -/

/-- C1: for every relative path and handler-function list accepted by the
routing table, `Any` registers exactly one route per method of the fixed
ordered verb set GET, POST, PUT, DELETE, HEAD, PATCH, OPTIONS, CONNECT,
TRACE (nine routes), and every registration receives the same adapted
handler chain, converted once before the loop over methods. -/
theorem Any_registers_one_route_per_fixed_verb (api : APIContainer)
    (rel : String) (fns : List HandlerFn)
    (hacc : ∀ m, api.Self.rejects m rel = false) :
    AllMethods = [.GET, .POST, .PUT, .DELETE, .HEAD, .PATCH, .OPTIONS,
      .CONNECT, .TRACE] ∧
    (api.Any rel fns).2 = AllMethods.map (fun m =>
      some { method := m, path := rel,
             handlers := api.convertHandlerFuncs rel fns }) ∧
    (api.Any rel fns).1.Self.routes = api.Self.routes ++
      AllMethods.map (fun m =>
        { method := m, path := rel,
          handlers := api.convertHandlerFuncs rel fns }) := by
  have hspec := anyFold_spec rel (api.convertHandlerFuncs rel fns)
    AllMethods api.Self []
  refine ⟨rfl, ?_, ?_⟩
  · simp only [APIContainer.Any]
    rw [hspec.1]
    simp [hacc]
  · simp only [APIContainer.Any]
    rw [hspec.2.2]
    simp [hacc]

/-- Witness for C1: on a concrete container whose routing table rejects
nothing, `Any` yields one accepted route per verb with the shared chain. -/
theorem Any_registers_one_route_per_fixed_verb_witness :
    (demoApi.Any "/x" [⟨1⟩]).2 = AllMethods.map (fun m =>
      some { method := m, path := "/x",
             handlers := demoApi.convertHandlerFuncs "/x" [⟨1⟩] }) :=
  (Any_registers_one_route_per_fixed_verb demoApi "/x" [⟨1⟩]
    (fun _ => rfl)).2.1

/-- C2: handlers converted before an `OnError` replacement stay bound to
the error handler active at their construction time; only handlers
converted after the replacement observe the new error handler. -/
theorem OnError_does_not_alter_built_handlers (api : APIContainer)
    (rel : String) (fns : List HandlerFn) (h2 : UserErrHandler) (ctx : Ctx)
    (hne : api.Container.getErrorHandler ctx ≠ ErrorHandlerFunc h2) :
    ((api.convertHandlerFuncs rel fns).map (fun hd => hd.errH ctx) =
       List.replicate fns.length (api.Container.getErrorHandler ctx)) ∧
    (((api.OnError h2).convertHandlerFuncs rel fns).map
        (fun hd => hd.errH ctx) =
       List.replicate fns.length (ErrorHandlerFunc h2)) ∧
    api.Container.getErrorHandler ctx ≠ ErrorHandlerFunc h2 := by
  refine ⟨?_, ?_, hne⟩
  · rw [convertHandlerFuncs_eq]
    simp [List.map_map, Function.comp_def]
  · rw [convertHandlerFuncs_eq]
    simp [APIContainer.OnError, List.map_map, Function.comp_def]

/-- Witness for C2: on the concrete container the previously built handler
keeps error handler `⟨5⟩` while the handler built after `OnError ⟨7⟩`
carries `⟨7⟩`. -/
theorem OnError_does_not_alter_built_handlers_witness :
    ((demoApi.convertHandlerFuncs "/x" [⟨1⟩]).map (fun hd => hd.errH 0) =
       List.replicate 1 (demoApi.Container.getErrorHandler 0)) ∧
    (((demoApi.OnError ⟨7⟩).convertHandlerFuncs "/x" [⟨1⟩]).map
        (fun hd => hd.errH 0) =
       List.replicate 1 (ErrorHandlerFunc ⟨7⟩)) ∧
    demoApi.Container.getErrorHandler 0 ≠ ErrorHandlerFunc ⟨7⟩ :=
  OnError_does_not_alter_built_handlers demoApi "/x" [⟨1⟩] ⟨7⟩ 0 (by decide)

/-- C3: a child scope created with `Party` starts with a copy of the
parent's dependency container at creation time, and later registrations on
parent and child are mutually invisible. -/
theorem Party_child_container_independent (api : APIContainer)
    (rel : String) (fns : List HandlerFn) (dp dc : TypeKey × Val)
    (hp : api.Container.lookup dp.1 = none)
    (hc : api.Container.lookup dc.1 = none)
    (hne : dp.1 ≠ dc.1) :
    ((api.mkParty rel fns).Container.deps = api.Container.deps) ∧
    (((api.mkParty rel fns).RegisterDependency dc).1.Container.lookup dc.1 =
        some dc.2) ∧
    ((api.RegisterDependency dp).1.Container.lookup dp.1 = some dp.2) ∧
    (((api.mkParty rel fns).RegisterDependency dc).1.Container.lookup dp.1 =
        none) ∧
    ((api.RegisterDependency dp).1.Container.lookup dc.1 = none) := by
  refine ⟨rfl, ?_, ?_, ?_, ?_⟩
  · exact lookup_Register_self (api.Container.clone) dc
  · exact lookup_Register_self api.Container dp
  · exact (lookup_Register_other (api.Container.clone) dc dp.1 hne).trans hp
  · exact (lookup_Register_other api.Container dp dc.1
      (Ne.symm hne)).trans hc

/-- Witness for C3: on the concrete container, a dependency registered on
the child after branching is invisible to the parent and vice versa. -/
theorem Party_child_container_independent_witness :
    ((demoApi.mkParty "/sub" []).Container.deps =
        demoApi.Container.deps) ∧
    (((demoApi.mkParty "/sub" []).RegisterDependency
        (2, 20)).1.Container.lookup 2 = some 20) ∧
    ((demoApi.RegisterDependency (1, 10)).1.Container.lookup 1 = some 10) ∧
    (((demoApi.mkParty "/sub" []).RegisterDependency
        (2, 20)).1.Container.lookup 1 = none) ∧
    ((demoApi.RegisterDependency (1, 10)).1.Container.lookup 2 = none) :=
  Party_child_container_independent demoApi "/sub" [] (1, 10) (2, 20)
    rfl rfl (by decide)

/-- C4: for every handler adapted by this container, a normal return of the
underlying function continues the pipeline (`ctx.Next` is called
automatically), and the dedicated stop sentinel halts the pipeline without
being treated as a hard failure. -/
theorem adapted_handlers_continue_or_stop (api : APIContainer)
    (rel : String) (fns : List HandlerFn) (ctx : Ctx) (v : Val) :
    ((api.convertHandlerFuncs rel fns).map
        (fun hd => hd.invoke ctx (FnReturn.value v)) =
      List.replicate fns.length StepOutcome.continueNext) ∧
    ((api.convertHandlerFuncs rel fns).map
        (fun hd => hd.invoke ctx FnReturn.nilReturn) =
      List.replicate fns.length StepOutcome.continueNext) ∧
    ((api.convertHandlerFuncs rel fns).map
        (fun hd => hd.invoke ctx FnReturn.stopSentinel) =
      List.replicate fns.length StepOutcome.haltStopped) := by
  rw [convertHandlerFuncs_eq]
  refine ⟨?_, ?_, ?_⟩ <;>
    simp [List.map_map, AdaptedHandler.invoke, Function.comp_def]

/-- C5: `Handle` adapts each function into exactly one uniform handler,
preserving order and length, registers the list under (method, path), and
returns the created route descriptor. -/
theorem Handle_registers_adapted_chain (api : APIContainer) (m : Method)
    (rel : String) (fns : List HandlerFn)
    (hacc : api.Self.rejects m rel = false) :
    ((api.convertHandlerFuncs rel fns).length = fns.length) ∧
    ((api.convertHandlerFuncs rel fns).map (fun hd => hd.fn) = fns) ∧
    ((api.Handle m rel fns).2 =
      some { method := m, path := rel,
             handlers := api.convertHandlerFuncs rel fns }) ∧
    ((api.Handle m rel fns).1.Self.routes =
      api.Self.routes ++ [{ method := m, path := rel,
                            handlers := api.convertHandlerFuncs rel fns }]) := by
  refine ⟨?_, ?_, ?_, ?_⟩
  · rw [convertHandlerFuncs_eq]; simp
  · rw [convertHandlerFuncs_eq]; simp [List.map_map, Function.comp_def]
  · simp [APIContainer.Handle, Party.Handle, hacc]
  · simp [APIContainer.Handle, Party.Handle, hacc]

/-- Witness for C5: a concrete GET registration creates the one-route
entry carrying the one adapted handler of the one input function. -/
theorem Handle_registers_adapted_chain_witness :
    ((demoApi.convertHandlerFuncs "/x" [⟨1⟩]).length = 1) ∧
    ((demoApi.convertHandlerFuncs "/x" [⟨1⟩]).map (fun hd => hd.fn) =
        [⟨1⟩]) ∧
    ((demoApi.Handle .GET "/x" [⟨1⟩]).2 =
        some { method := .GET, path := "/x",
               handlers := demoApi.convertHandlerFuncs "/x" [⟨1⟩] }) ∧
    ((demoApi.Handle .GET "/x" [⟨1⟩]).1.Self.routes =
        demoApi.Self.routes ++
          [{ method := .GET, path := "/x",
             handlers := demoApi.convertHandlerFuncs "/x" [⟨1⟩] }]) :=
  Handle_registers_adapted_chain demoApi .GET "/x" [⟨1⟩] rfl

/-- C6: every function adapted in one registration call gets its resolution
plan built with the same positional path-parameter count, computed by the
external pattern analyzer on the owning scope's path prefix concatenated
with the route's relative path. -/
theorem paramsCount_from_fullpath (api : APIContainer) (rel : String)
    (fns : List HandlerFn) :
    (api.convertHandlerFuncs rel fns).map (fun hd => hd.paramsCount) =
      List.replicate fns.length
        (CountParams (api.Self.GetRelPath ++ rel) api.Self.Macros) := by
  rw [convertHandlerFuncs_eq]
  simp [List.map_map, Function.comp_def]

/-- C7: after `OnError h` the container's error-handler accessor returns
`h` for every request context, and a subsequent `OnError h2` replaces it —
last registration wins. -/
theorem OnError_last_registration_wins (api : APIContainer)
    (h h2 : UserErrHandler) (ctx : Ctx) :
    ((api.OnError h).Container.getErrorHandler ctx = ErrorHandlerFunc h) ∧
    (((api.OnError h).OnError h2).Container.getErrorHandler ctx =
      ErrorHandlerFunc h2) :=
  ⟨rfl, rfl⟩

/-- C8: `Any` attempts each method's registration independently: the result
list has one entry per method in the fixed verb order, each entry
determined solely by whether the routing table rejects its own
(method, path) pair, and every non-rejected method's route is registered
even when other methods are rejected. -/
theorem Any_attempts_methods_independently (api : APIContainer)
    (rel : String) (fns : List HandlerFn) :
    ((api.Any rel fns).2 = AllMethods.map (fun m =>
        if api.Self.rejects m rel then none
        else some { method := m, path := rel,
                    handlers := api.convertHandlerFuncs rel fns })) ∧
    ((api.Any rel fns).2.length = 9) ∧
    ((api.Any rel fns).1.Self.routes = api.Self.routes ++
      (AllMethods.filter (fun m => !api.Self.rejects m rel)).map (fun m =>
        { method := m, path := rel,
          handlers := api.convertHandlerFuncs rel fns })) := by
  have hspec := anyFold_spec rel (api.convertHandlerFuncs rel fns)
    AllMethods api.Self []
  refine ⟨?_, ?_, ?_⟩
  · simp only [APIContainer.Any]
    rw [hspec.1]
    simp
  · simp only [APIContainer.Any]
    rw [hspec.1]
    simp [AllMethods]
  · simp only [APIContainer.Any]
    exact hspec.2.2

/-- C9: each per-verb registration helper equals calling `Handle` with the
corresponding standard HTTP method constant and the same arguments. -/
theorem verb_helpers_are_Handle (api : APIContainer) (rel : String)
    (fns : List HandlerFn) :
    api.Get rel fns = api.Handle .GET rel fns ∧
    api.Post rel fns = api.Handle .POST rel fns ∧
    api.Put rel fns = api.Handle .PUT rel fns ∧
    api.Delete rel fns = api.Handle .DELETE rel fns ∧
    api.Connect rel fns = api.Handle .CONNECT rel fns ∧
    api.Head rel fns = api.Handle .HEAD rel fns ∧
    api.Options rel fns = api.Handle .OPTIONS rel fns ∧
    api.Patch rel fns = api.Handle .PATCH rel fns ∧
    api.Trace rel fns = api.Handle .TRACE rel fns :=
  ⟨rfl, rfl, rfl, rfl, rfl, rfl, rfl, rfl, rfl⟩

/-- C10: `Use` and `Done` convert their functions against the fixed
relative path `/` — so the parameter count those middleware handlers see
is derived from the owning scope's own prefix plus `/` — and delegate the
converted list unchanged to the underlying scope's `Use` and `Done`. -/
theorem Use_Done_convert_at_slash (api : APIContainer)
    (fns : List HandlerFn) :
    ((api.Use fns).Self.useHandlers =
       api.Self.useHandlers ++ api.convertHandlerFuncs "/" fns) ∧
    ((api.Done fns).Self.doneHandlers =
       api.Self.doneHandlers ++ api.convertHandlerFuncs "/" fns) ∧
    ((api.convertHandlerFuncs "/" fns).map (fun hd => hd.paramsCount) =
       List.replicate fns.length
         (CountParams (api.Self.GetRelPath ++ "/") api.Self.Macros)) := by
  refine ⟨rfl, rfl, ?_⟩
  rw [convertHandlerFuncs_eq]
  simp [List.map_map, Function.comp_def]

end Iris
